import Mathlib

/-!
Verification development for the realtime-translator speaker/language-pair
state machine.

The repository snapshot contains several revisions of the two central hooks.
We embed each revision the claims refer to:

* `V1` — `src/app/hooks/useLanguagePair.ts` (auto-detection revision:
  default `zh`/`en` pair, `handleNewSpeaker` may rewrite the pair,
  `getTranslationDirection` may also rewrite the pair for out-of-pair
  speakers).
* `V2` — the `useLanguagePair` revision at the top of `src/unnamed/part_001`
  (modal-selection revision: pair set only by explicit user action,
  `getTranslationDirection` is pure and defaults for unknown speakers).
* `Dispatch` — the `window._recentTranslations` dedup guard of the
  `handleFunctionCall` revision in `src/unnamed/part_001`.
* `Handler` — `isTranslationMessage`, `translateAndSpeak` (App.tsx) and
  `handleAudioTranscriptionComplete` of `src/app/hooks/useHandleServerEvent.ts`.
* `Detect` — `detectLanguageSimple` (useHandleServerEvent.ts) and
  `detectLanguage` (App.tsx).
-/

namespace RealtimeTranslator

/-- The `Language` value type: `{ code, name }`; equality of languages in the
program is always by `code`. -/
structure Language where
  code : String
  name : String
deriving DecidableEq, Repr

/-- The `LockedLanguagePair`: the two languages currently locked for translation. -/
structure LockedLanguagePair where
  source : Language
  target : Language
deriving DecidableEq, Repr

/-- A registry entry: one inferred speaker identity. -/
structure Speaker where
  speakerId : String
  language : Language
  timestamp : Nat
  isActive : Bool
deriving DecidableEq, Repr

/-- A resolved translation direction. -/
structure TranslationDirection where
  source : Language
  target : Language
deriving DecidableEq, Repr

/-- The logical inverse of a direction. -/
def TranslationDirection.inv (d : TranslationDirection) : TranslationDirection :=
  ⟨d.target, d.source⟩

def enLanguage : Language := ⟨"en", "English"⟩
def zhLanguage : Language := ⟨"zh", "Chinese"⟩

/-- Shared hook state: `lockedLanguagePair`, `activeSpeakers`,
`lastDetectedLanguage` (the three `useState` cells of `useLanguagePair`). -/
structure PairState where
  lockedLanguagePair : Option LockedLanguagePair
  activeSpeakers : List Speaker
  lastDetectedLanguage : Option Language
deriving DecidableEq, Repr

/-- Embeds `activeSpeakers.filter(isActive).sort(byTimestampDesc)[0]`: JS `sort` is
stable, so the head of the descending sort is the first element attaining the
maximal timestamp; computed here directly by a fold. -/
def mostRecentActive (speakers : List Speaker) : Option Speaker :=
  (speakers.filter (fun s => s.isActive)).foldl
    (fun acc s =>
      match acc with
      | none => some s
      | some m => if s.timestamp > m.timestamp then some s else some m)
    none

namespace V1

/-- Initial state of `useLanguagePair` in `src/app/hooks/useLanguagePair.ts`:
the hook starts with the default Chinese/English pair already locked. -/
def initialState : PairState :=
  { lockedLanguagePair := some ⟨zhLanguage, enLanguage⟩
    activeSpeakers := []
    lastDetectedLanguage := none }

/-- Embeds `handleNewSpeaker(speakerId, language)` of
`src/app/hooks/useLanguagePair.ts` (lines 33-86), with `Date.now()` passed in
as the logical clock `now`. -/
def handleNewSpeaker (σ : PairState) (speakerId : String) (language : Language)
    (now : Nat) : PairState :=
  let σ := { σ with lastDetectedLanguage := some language }
  match σ.activeSpeakers.find? (fun s => s.language.code == language.code) with
  | some existing =>
      { σ with activeSpeakers := σ.activeSpeakers.map (fun s =>
          if s.speakerId == existing.speakerId then
            { s with isActive := true, timestamp := now }
          else s) }
  | none =>
      match σ.lockedLanguagePair with
      | some pair =>
          if language.code == pair.source.code || language.code == pair.target.code then
            { σ with activeSpeakers :=
                σ.activeSpeakers ++ [⟨speakerId, language, now, true⟩] }
          else
            { σ with
                lockedLanguagePair := some ⟨language, pair.target⟩
                activeSpeakers :=
                  σ.activeSpeakers ++ [⟨speakerId, language, now, true⟩] }
      | none =>
          { σ with
              lockedLanguagePair := some ⟨language, enLanguage⟩
              activeSpeakers :=
                σ.activeSpeakers ++ [⟨speakerId, language, now, true⟩] }

/-- One speaker-observation operation (an `upsert`): the arguments of one
`handleNewSpeaker` call. -/
structure UpsertOp where
  speakerId : String
  language : Language
  now : Nat

/-- Apply a sequence of `handleNewSpeaker` calls. -/
def applyUpserts (σ : PairState) (ops : List UpsertOp) : PairState :=
  ops.foldl (fun σ op => handleNewSpeaker σ op.speakerId op.language op.now) σ

/-- The most recent active speaker other than `speakerId`
(`activeSpeakers.filter(s => s.isActive && s.speakerId !== speakerId)
.sort(byTimestampDesc)[0]`). -/
def mostRecentActiveOther (speakers : List Speaker) (speakerId : String) :
    Option Speaker :=
  (speakers.filter (fun s => s.isActive && s.speakerId != speakerId)).foldl
    (fun acc s =>
      match acc with
      | none => some s
      | some m => if s.timestamp > m.timestamp then some s else some m)
    none

/-- Embeds `getTranslationDirection(speakerId)` of
`src/app/hooks/useLanguagePair.ts` (lines 88-133).  This revision mutates
`lockedLanguagePair` in its out-of-pair branch, so it is modelled as a state
transformer returning the computed direction and the updated state. -/
def getTranslationDirection (σ : PairState) (speakerId : String) :
    Option TranslationDirection × PairState :=
  match σ.lockedLanguagePair with
  | none => (none, σ)
  | some pair =>
      match σ.activeSpeakers.find? (fun s => s.speakerId == speakerId) with
      | none => (none, σ)
      | some speaker =>
          if speaker.language.code == pair.source.code then
            (some ⟨pair.source, pair.target⟩, σ)
          else if speaker.language.code == pair.target.code then
            (some ⟨pair.target, pair.source⟩, σ)
          else
            match mostRecentActiveOther σ.activeSpeakers speakerId with
            | some mostRecent =>
                let newPair : LockedLanguagePair :=
                  ⟨speaker.language, mostRecent.language⟩
                (some ⟨speaker.language, mostRecent.language⟩,
                 { σ with lockedLanguagePair := some newPair })
            | none => (some ⟨speaker.language, pair.source⟩, σ)

end V1

namespace V2

/-- Embeds `handleNewSpeaker(speakerId, language)` of the `useLanguagePair` revision
in `src/unnamed/part_001` (lines 69-98): returns early when no pair is locked
or when the language is not part of the locked pair; otherwise upserts the
speaker.  It never writes `lockedLanguagePair`. -/
def handleNewSpeaker (σ : PairState) (speakerId : String) (language : Language)
    (now : Nat) : PairState :=
  match σ.lockedLanguagePair with
  | none => σ
  | some pair =>
      if language.code != pair.source.code && language.code != pair.target.code then
        σ
      else
        let σ := { σ with lastDetectedLanguage := some language }
        match σ.activeSpeakers.find? (fun s => s.speakerId == speakerId) with
        | some _ =>
            { σ with activeSpeakers := σ.activeSpeakers.map (fun s =>
                if s.speakerId == speakerId then
                  { s with language := language, isActive := true, timestamp := now }
                else s) }
        | none =>
            { σ with activeSpeakers :=
                σ.activeSpeakers ++ [⟨speakerId, language, now, true⟩] }

/-- Embeds `getTranslationDirection(speakerId)` of the `useLanguagePair` revision in
`src/unnamed/part_001` (lines 100-141): pure; unknown speakers and speakers
whose language matches neither side fall back to the default
`source → target` direction. -/
def getTranslationDirection (σ : PairState) (speakerId : String) :
    Option TranslationDirection :=
  match σ.lockedLanguagePair with
  | none => none
  | some pair =>
      match σ.activeSpeakers.find? (fun s => s.speakerId == speakerId) with
      | none => some ⟨pair.source, pair.target⟩
      | some speaker =>
          if speaker.language.code == pair.source.code then
            some ⟨pair.source, pair.target⟩
          else if speaker.language.code == pair.target.code then
            some ⟨pair.target, pair.source⟩
          else
            some ⟨pair.source, pair.target⟩

end V2

namespace Dispatch

/-- JavaScript `\s` on the characters that can occur here: space and the
ASCII control whitespace. -/
def jsWhitespace (c : Char) : Bool :=
  c == ' ' || c == '\t' || c == '\n' || c == '\r' || c == '\x0b' || c == '\x0c'

/-- Embeds `text.substring(0, 20).replace(/\s+/g, '')` from `handleFunctionCall` in
`src/unnamed/part_001` (lines 1069-1071). -/
def textHash (text : String) : String :=
  String.mk ((text.data.take 20).filter (fun c => !(jsWhitespace c)))

/-- The dedup key ``` `${textHash}:${sourceLang}→${targetLang}` ``` (line 1081). -/
def translationKey (text sourceLang targetLang : String) : String :=
  textHash text ++ ":" ++ sourceLang ++ "→" ++ targetLang

/-- Embeds `Map.get` on the insertion-ordered entry list backing
`window._recentTranslations`. -/
def lookupKey (m : List (String × Nat)) (k : String) : Option Nat :=
  (m.find? (fun e => e.1 == k)).map (fun e => e.2)

/-- Embeds `Map.set`: overwrite the entry if the key is present, otherwise append. -/
def setKey (m : List (String × Nat)) (k : String) (v : Nat) :
    List (String × Nat) :=
  if m.any (fun e => e.1 == k) then
    m.map (fun e => if e.1 == k then (e.1, v) else e)
  else
    m ++ [(k, v)]

/-- The lazy prune on insert (lines 1103-1109): delete every entry whose
timestamp is older than `now - 5 * 60 * 1000`. -/
def pruneOld (m : List (String × Nat)) (now : Nat) : List (String × Nat) :=
  m.filter (fun e => decide (now - 300000 ≤ e.2))

/-- Whether a `translate_text` dispatch passed the circular-translation guard
(`recorded`) or was dropped by it (`skippedCircular`). -/
inductive DispatchOutcome where
  | skippedCircular
  | recorded
deriving DecidableEq, Repr

/-- The dedup guard of the `translate_text` branch of `handleFunctionCall` in
`src/unnamed/part_001` (lines 1069-1109): look the key up; if it was recorded
less than 3000 ms ago (and its timestamp is truthy) skip without touching the
map; otherwise record `now` under the key and lazily prune entries older than
five minutes.  Only a `recorded` outcome continues toward the translation
collaborator. -/
def dispatchDedup (m : List (String × Nat)) (now : Nat)
    (text sourceLang targetLang : String) : DispatchOutcome × List (String × Nat) :=
  let key := translationKey text sourceLang targetLang
  match lookupKey m key with
  | some ts =>
      if ts ≠ 0 ∧ now - ts < 3000 then
        (DispatchOutcome.skippedCircular, m)
      else
        (DispatchOutcome.recorded, pruneOld (setKey m key now) now)
  | none => (DispatchOutcome.recorded, pruneOld (setKey m key now) now)

end Dispatch

namespace Handler

/-- A call made to the external translation collaborator
(`/api/chat/completions` in `translateAndSpeak`). -/
structure TranslationApiCall where
  text : String
  sourceLang : String
  targetLang : String
deriving DecidableEq, Repr

/-- Embeds `translateAndSpeak(text, sourceLang, targetLang)` of `src/app/App.tsx`
(lines 88-127), modelled by the API call it makes: identical languages
short-circuit to `null` before any network call. -/
def translateAndSpeak (text sourceLang targetLang : String) :
    Option TranslationApiCall :=
  if sourceLang == targetLang then none
  else some ⟨text, sourceLang, targetLang⟩

/-- JavaScript `\w` (ASCII letters, digits, underscore). -/
def isWordChar (c : Char) : Bool :=
  c.isAlpha || c.isDigit || c == '_'

/-- Whether the regex `\[\w+ → \w+\]` matches at the head of `cs`.  Since
`\w` matches neither `' '` nor `'→'`, the greedy `\w+` must consume the whole
maximal word run, so a deterministic scan is equivalent to the regex. -/
def markerAt (cs : List Char) : Bool :=
  match cs with
  | '[' :: rest =>
      let w1 := rest.takeWhile isWordChar
      let r1 := rest.dropWhile isWordChar
      if w1.isEmpty then false
      else
        match r1 with
        | ' ' :: '→' :: ' ' :: r2 =>
            let w2 := r2.takeWhile isWordChar
            let r3 := r2.dropWhile isWordChar
            if w2.isEmpty then false
            else
              match r3 with
              | ']' :: _ => true
              | _ => false
        | _ => false
  | _ => false

/-- Embeds the search of `text.match(/\[\w+ → \w+\]/)`: non-null iff the pattern matches at some
position of the text. -/
def containsMarkerAux : List Char → Bool
  | [] => false
  | c :: rest => markerAt (c :: rest) || containsMarkerAux rest

/-- Embeds `isTranslationMessage(text)` of `src/app/hooks/useHandleServerEvent.ts`
(lines 112-121). -/
def isTranslationMessage (text : String) : Bool :=
  if text.isEmpty then false
  else containsMarkerAux text.data

/-- Embeds `handleAudioTranscriptionComplete` of
`src/app/hooks/useHandleServerEvent.ts` (lines 283-332), modelled by the
translation-collaborator call it issues: no direction, an identity direction,
or an already-translated message all return before the collaborator is
reached. -/
def handleAudioTranscriptionComplete (direction : Option TranslationDirection)
    (transcription : String) : Option TranslationApiCall :=
  match direction with
  | none => none
  | some d =>
      if d.source.code == d.target.code then none
      else if isTranslationMessage transcription then none
      else translateAndSpeak transcription d.source.code d.target.code

end Handler

namespace Detect

/-- Character-range test for one regex character class. -/
def inRange (c : Char) (lo hi : Nat) : Bool :=
  lo ≤ c.toNat && c.toNat ≤ hi

def chineseChar (c : Char) : Bool := inRange c 0x4e00 0x9fff

def japaneseChar (c : Char) : Bool :=
  inRange c 0x3040 0x309f || inRange c 0x30a0 0x30ff

def koreanChar (c : Char) : Bool := inRange c 0xac00 0xd7af

def arabicChar (c : Char) : Bool := inRange c 0x600 0x6ff

def russianChar (c : Char) : Bool := inRange c 0x400 0x4ff

/-- Pattern `/[áéíóúüñ¿¡]/i`. -/
def spanishChar (c : Char) : Bool :=
  c ∈ ['á', 'é', 'í', 'ó', 'ú', 'ü', 'ñ', '¿', '¡',
       'Á', 'É', 'Í', 'Ó', 'Ú', 'Ü', 'Ñ']

/-- Pattern `/[äöüßÄÖÜ]/`. -/
def germanChar (c : Char) : Bool :=
  c ∈ ['ä', 'ö', 'ü', 'ß', 'Ä', 'Ö', 'Ü']

/-- Pattern `/[àâçéèêëîïôùûüÿœæ]/i`. -/
def frenchChar (c : Char) : Bool :=
  c ∈ ['à', 'â', 'ç', 'é', 'è', 'ê', 'ë', 'î', 'ï', 'ô', 'ù', 'û', 'ü', 'ÿ',
       'œ', 'æ', 'À', 'Â', 'Ç', 'É', 'È', 'Ê', 'Ë', 'Î', 'Ï', 'Ô', 'Ù', 'Û',
       'Ü', 'Ÿ', 'Œ', 'Æ']

/-- Embeds `pattern.test(text)`. -/
def testPattern (p : Char → Bool) (text : String) : Bool :=
  text.data.any p

/-- None of the eight non-default script patterns matches `text`. -/
def noSpecialScript (text : String) : Bool :=
  !(testPattern chineseChar text) && !(testPattern japaneseChar text) &&
  !(testPattern koreanChar text) && !(testPattern arabicChar text) &&
  !(testPattern russianChar text) && !(testPattern spanishChar text) &&
  !(testPattern germanChar text) && !(testPattern frenchChar text)

/-- Embeds `detectLanguageSimple(text)` of `src/app/hooks/useHandleServerEvent.ts`
(lines 595-619): `null` only for empty text, otherwise the first matching
script pattern, defaulting to `"en"` for Latin script. -/
def detectLanguageSimple (text : String) : Option String :=
  if text == "" then none
  else if testPattern chineseChar text then some "zh"
  else if testPattern japaneseChar text then some "ja"
  else if testPattern koreanChar text then some "ko"
  else if testPattern arabicChar text then some "ar"
  else if testPattern russianChar text then some "ru"
  else if testPattern spanishChar text then some "es"
  else if testPattern germanChar text then some "de"
  else if testPattern frenchChar text then some "fr"
  else some "en"

/-- Embeds `detectLanguage(text)` of `src/app/App.tsx` (lines 462-503): additionally
rejects the `"[inaudible]"` and `"[Transcribing...]"` sentinels. -/
def detectLanguageApp (text : String) : Option Language :=
  if text == "" || text == "[inaudible]" || text == "[Transcribing...]" then none
  else if testPattern chineseChar text then some ⟨"zh", "Chinese"⟩
  else if testPattern japaneseChar text then some ⟨"ja", "Japanese"⟩
  else if testPattern koreanChar text then some ⟨"ko", "Korean"⟩
  else if testPattern arabicChar text then some ⟨"ar", "Arabic"⟩
  else if testPattern russianChar text then some ⟨"ru", "Russian"⟩
  else if testPattern spanishChar text then some ⟨"es", "Spanish"⟩
  else if testPattern germanChar text then some ⟨"de", "German"⟩
  else if testPattern frenchChar text then some ⟨"fr", "French"⟩
  else some ⟨"en", "English"⟩

end Detect

/-- A locked pair is present and its two codes differ. -/
def PairValid (σ : PairState) : Prop :=
  ∃ p, σ.lockedLanguagePair = some p ∧ p.source.code ≠ p.target.code

theorem initialState_pairValid : PairValid V1.initialState :=
  ⟨⟨zhLanguage, enLanguage⟩, rfl, by decide⟩

theorem handleNewSpeaker_preserves_pairValid (σ : PairState) (speakerId : String)
    (language : Language) (now : Nat) (h : PairValid σ) :
    PairValid (V1.handleNewSpeaker σ speakerId language now) := by
  obtain ⟨p, hp, hne⟩ := h
  unfold V1.handleNewSpeaker
  simp only
  split
  · exact ⟨p, hp, hne⟩
  · split
    · rename_i pair heq
      have hpe : pair = p := by
        have hσ : σ.lockedLanguagePair = some pair := heq
        rw [hp] at hσ
        exact (Option.some.inj hσ).symm
      split
      · exact ⟨pair, heq, by rw [hpe]; exact hne⟩
      · rename_i hnotin
        refine ⟨⟨language, pair.target⟩, rfl, fun hcode => hnotin ?_⟩
        simp only [Bool.or_eq_true, beq_iff_eq]
        exact Or.inr hcode
    · rename_i heq
      have hσ : σ.lockedLanguagePair = none := heq
      rw [hp] at hσ
      cases hσ

theorem applyUpserts_preserves_pairValid (σ : PairState) (ops : List V1.UpsertOp)
    (h : PairValid σ) : PairValid (V1.applyUpserts σ ops) := by
  induction ops generalizing σ with
  | nil => exact h
  | cons op rest ih =>
      have hstep := handleNewSpeaker_preserves_pairValid σ op.speakerId
        op.language op.now h
      simpa [V1.applyUpserts, List.foldl] using
        ih (V1.handleNewSpeaker σ op.speakerId op.language op.now) hstep

/-- C1: for every sequence of speaker-observation operations
(`handleNewSpeaker` upserts) starting from the hook's initial state, whenever
a `LockedLanguagePair` is present it satisfies `source.code != target.code`;
every pair update performed by an upsert picks a language outside the current
pair, so no update can ever make the two codes equal. -/
theorem upsert_sequences_preserve_pair_distinct (ops : List V1.UpsertOp)
    (p : LockedLanguagePair)
    (h : (V1.applyUpserts V1.initialState ops).lockedLanguagePair = some p) :
    p.source.code ≠ p.target.code := by
  obtain ⟨q, hq, hneq⟩ :=
    applyUpserts_preserves_pairValid V1.initialState ops initialState_pairValid
  rw [hq] at h
  rwa [← Option.some.inj h]

/-- Witness for C1: after the single upsert `("s1", ko)` the pair is
`{ko, en}` and its codes differ. -/
theorem upsert_sequences_preserve_pair_distinct_witness :
    (V1.applyUpserts V1.initialState
        [⟨"s1", ⟨"ko", "Korean"⟩, 1⟩]).lockedLanguagePair =
      some ⟨⟨"ko", "Korean"⟩, ⟨"en", "English"⟩⟩ ∧
    ("ko" : String) ≠ "en" := by
  have h : (V1.applyUpserts V1.initialState
      [⟨"s1", ⟨"ko", "Korean"⟩, 1⟩]).lockedLanguagePair =
      some ⟨⟨"ko", "Korean"⟩, ⟨"en", "English"⟩⟩ := by decide
  exact ⟨h, upsert_sequences_preserve_pair_distinct _ _ h⟩

/-- Counterexample to C2: with the default `{zh, en}` pair, after `s2` speaks
English at time 1 and `s1` speaks Chinese at time 2, the most recently active
speaker uses `zh`; yet a Korean utterance by `s3` yields the pair `{ko, en}`,
which does not retain the most-recently-used language `zh` — the claimed
"keep the most-recently-used side" policy fails. -/
theorem locker_extend_recency_counterexample :
    (mostRecentActive (V1.applyUpserts V1.initialState
        [⟨"s2", enLanguage, 1⟩, ⟨"s1", zhLanguage, 2⟩]).activeSpeakers).map
        (fun s => s.language.code) = some "zh" ∧
    (V1.applyUpserts V1.initialState
        [⟨"s2", enLanguage, 1⟩, ⟨"s1", zhLanguage, 2⟩,
         ⟨"s3", ⟨"ko", "Korean"⟩, 3⟩]).lockedLanguagePair =
      some ⟨⟨"ko", "Korean"⟩, ⟨"en", "English"⟩⟩ ∧
    ("ko" : String) ≠ "zh" ∧ ("en" : String) ≠ "zh" := by
  refine ⟨by decide, by decide, by decide, by decide⟩

/-- C2 as amended: when a pair is locked and an utterance arrives in a
language with no registered same-language speaker and matching neither
`source.code` nor `target.code`, the locker always replaces the `source` side
with the new language and keeps the `target` side unchanged, regardless of
which side was most recently used. -/
theorem locker_extend_replaces_source_side (σ : PairState) (p : LockedLanguagePair)
    (speakerId : String) (language : Language) (now : Nat)
    (hp : σ.lockedLanguagePair = some p)
    (hfind : σ.activeSpeakers.find?
      (fun s => s.language.code == language.code) = none)
    (hs : language.code ≠ p.source.code)
    (ht : language.code ≠ p.target.code) :
    (V1.handleNewSpeaker σ speakerId language now).lockedLanguagePair =
      some ⟨language, p.target⟩ := by
  unfold V1.handleNewSpeaker
  simp only
  split
  · rename_i existing hfind2
    have hfind2' : σ.activeSpeakers.find?
        (fun s => s.language.code == language.code) = some existing := hfind2
    rw [hfind] at hfind2'
    cases hfind2'
  · split
    · rename_i pair heq
      have hσ : σ.lockedLanguagePair = some pair := heq
      rw [hp] at hσ
      have hpe : pair = p := (Option.some.inj hσ).symm
      subst hpe
      split
      · rename_i hin
        simp only [Bool.or_eq_true, beq_iff_eq] at hin
        cases hin with
        | inl h => exact absurd h hs
        | inr h => exact absurd h ht
      · rfl
    · rename_i heq
      have hσ : σ.lockedLanguagePair = none := heq
      rw [hp] at hσ
      cases hσ

/-- Witness for C2 (amended): in the concrete `{zh, en}` trace, the Korean
utterance produces the pair `{ko, en}` — source replaced, target kept. -/
theorem locker_extend_replaces_source_side_witness :
    (V1.handleNewSpeaker
        (V1.applyUpserts V1.initialState
          [⟨"s2", enLanguage, 1⟩, ⟨"s1", zhLanguage, 2⟩])
        "s3" ⟨"ko", "Korean"⟩ 3).lockedLanguagePair =
      some ⟨⟨"ko", "Korean"⟩, ⟨"en", "English"⟩⟩ :=
  locker_extend_replaces_source_side _ ⟨zhLanguage, enLanguage⟩ _ _ _
    (by decide) (by decide) (by decide) (by decide)

/-- Counterexample to C3: from the `NoPair` state with an empty registry, a
single upsert of one French-speaking speaker — exactly one distinct observed
language — already transitions the locker to `Locked`, and the resulting pair
is `{fr, en}` whose target `en` was never observed at all; the locker does
not wait for two distinct observed languages. -/
theorem nopair_locks_after_one_language_counterexample :
    (V1.handleNewSpeaker ⟨none, [], none⟩ "s1" ⟨"fr", "French"⟩ 1).lockedLanguagePair =
      some ⟨⟨"fr", "French"⟩, ⟨"en", "English"⟩⟩ ∧
    ((V1.handleNewSpeaker ⟨none, [], none⟩ "s1" ⟨"fr", "French"⟩ 1).activeSpeakers.map
        (fun s => s.language.code)) = ["fr"] ∧
    ("en" : String) ≠ "fr" := by
  refine ⟨by decide, by decide, by decide⟩

/-- C3 as amended: from the `NoPair` state, the first upsert whose language
has no registered same-language speaker immediately locks a pair with the new
language as `source` and hard-coded English as `target`; two distinct
observed languages are not required. -/
theorem nopair_first_upsert_locks_with_english (σ : PairState)
    (speakerId : String) (language : Language) (now : Nat)
    (hp : σ.lockedLanguagePair = none)
    (hfind : σ.activeSpeakers.find?
      (fun s => s.language.code == language.code) = none) :
    (V1.handleNewSpeaker σ speakerId language now).lockedLanguagePair =
      some ⟨language, enLanguage⟩ := by
  unfold V1.handleNewSpeaker
  simp only
  split
  · rename_i existing hfind2
    have hfind2' : σ.activeSpeakers.find?
        (fun s => s.language.code == language.code) = some existing := hfind2
    rw [hfind] at hfind2'
    cases hfind2'
  · split
    · rename_i pair heq
      have hσ : σ.lockedLanguagePair = some pair := heq
      rw [hp] at hσ
      cases hσ
    · rfl

/-- Witness for C3 (amended): the empty NoPair state plus one French upsert
locks `{fr, en}`. -/
theorem nopair_first_upsert_locks_with_english_witness :
    (V1.handleNewSpeaker ⟨none, [], none⟩ "s1" ⟨"fr", "French"⟩ 1).lockedLanguagePair =
      some ⟨⟨"fr", "French"⟩, enLanguage⟩ :=
  nopair_first_upsert_locks_with_english ⟨none, [], none⟩ "s1" ⟨"fr", "French"⟩ 1
    rfl rfl

/-- C4: for a fixed locked pair with distinct codes, resolving a speaker
whose language equals `pair.source` yields `source → target`, and resolving a
speaker whose language equals `pair.target` yields `target → source`; the two
results are inverses of each other.  This holds in both resolver revisions
(`V1`, `V2`). -/
theorem resolve_direction_inverse (σ : PairState) (p : LockedLanguagePair)
    (idA idB : String) (sA sB : Speaker)
    (hp : σ.lockedLanguagePair = some p)
    (hdist : p.source.code ≠ p.target.code)
    (hA : σ.activeSpeakers.find? (fun s => s.speakerId == idA) = some sA)
    (hAlang : sA.language.code = p.source.code)
    (hB : σ.activeSpeakers.find? (fun s => s.speakerId == idB) = some sB)
    (hBlang : sB.language.code = p.target.code) :
    (V1.getTranslationDirection σ idA).1 = some ⟨p.source, p.target⟩ ∧
    (V1.getTranslationDirection σ idB).1 = some ⟨p.target, p.source⟩ ∧
    V2.getTranslationDirection σ idA = some ⟨p.source, p.target⟩ ∧
    V2.getTranslationDirection σ idB = some ⟨p.target, p.source⟩ ∧
    (⟨p.target, p.source⟩ : TranslationDirection) =
      TranslationDirection.inv ⟨p.source, p.target⟩ := by
  refine ⟨?_, ?_, ?_, ?_, rfl⟩
  · simp [V1.getTranslationDirection, hp, hA, hAlang]
  · simp [V1.getTranslationDirection, hp, hB, hBlang, Ne.symm hdist]
  · simp [V2.getTranslationDirection, hp, hA, hAlang]
  · simp [V2.getTranslationDirection, hp, hB, hBlang, Ne.symm hdist]

/-- Witness for C4: with the pair `{zh, en}`, speaker `"a"` (zh) resolves to
`zh → en` and speaker `"b"` (en) resolves to `en → zh` in both revisions. -/
theorem resolve_direction_inverse_witness :
    (V1.getTranslationDirection
      ⟨some ⟨zhLanguage, enLanguage⟩,
       [⟨"a", zhLanguage, 1, true⟩, ⟨"b", enLanguage, 2, true⟩], none⟩ "a").1 =
      some ⟨zhLanguage, enLanguage⟩ ∧
    (V1.getTranslationDirection
      ⟨some ⟨zhLanguage, enLanguage⟩,
       [⟨"a", zhLanguage, 1, true⟩, ⟨"b", enLanguage, 2, true⟩], none⟩ "b").1 =
      some ⟨enLanguage, zhLanguage⟩ ∧
    V2.getTranslationDirection
      ⟨some ⟨zhLanguage, enLanguage⟩,
       [⟨"a", zhLanguage, 1, true⟩, ⟨"b", enLanguage, 2, true⟩], none⟩ "a" =
      some ⟨zhLanguage, enLanguage⟩ ∧
    V2.getTranslationDirection
      ⟨some ⟨zhLanguage, enLanguage⟩,
       [⟨"a", zhLanguage, 1, true⟩, ⟨"b", enLanguage, 2, true⟩], none⟩ "b" =
      some ⟨enLanguage, zhLanguage⟩ := by
  have h := resolve_direction_inverse
    ⟨some ⟨zhLanguage, enLanguage⟩,
     [⟨"a", zhLanguage, 1, true⟩, ⟨"b", enLanguage, 2, true⟩], none⟩
    ⟨zhLanguage, enLanguage⟩ "a" "b"
    ⟨"a", zhLanguage, 1, true⟩ ⟨"b", enLanguage, 2, true⟩
    rfl (by decide) (by decide) (by decide) (by decide) (by decide)
  exact ⟨h.1, h.2.1, h.2.2.1, h.2.2.2.1⟩

/-- C5 (on the `part_001` resolver revision it cites): `resolve` returns
`none` exactly when no pair is locked, and when a pair is locked but the
speaker id is unknown it returns the default direction
`{source: pair.source, target: pair.target}` rather than `none`. -/
theorem resolve_none_iff_no_pair (σ : PairState) (speakerId : String) :
    (V2.getTranslationDirection σ speakerId = none ↔
      σ.lockedLanguagePair = none) ∧
    (∀ p, σ.lockedLanguagePair = some p →
      σ.activeSpeakers.find? (fun s => s.speakerId == speakerId) = none →
      V2.getTranslationDirection σ speakerId = some ⟨p.source, p.target⟩) := by
  cases hLP : σ.lockedLanguagePair with
  | none =>
      refine ⟨?_, ?_⟩
      · simp [V2.getTranslationDirection, hLP]
      · intro p hp _
        exact Option.noConfusion hp
  | some p =>
      refine ⟨?_, ?_⟩
      · simp only [V2.getTranslationDirection, hLP]
        constructor
        · intro h
          exfalso
          revert h
          cases hfind : σ.activeSpeakers.find?
              (fun s => s.speakerId == speakerId) with
          | none => simp
          | some s =>
              intro h
              simp only at h
              split_ifs at h
        · intro h
          cases h
      · intro q hq hfind
        have hpq : q = p := (Option.some.inj hq).symm
        subst hpq
        simp [V2.getTranslationDirection, hLP, hfind]

/-- Witness for C5: with no pair the resolver returns `none`; with the
`{zh, en}` pair and an unknown speaker it returns the default `zh → en`. -/
theorem resolve_none_iff_no_pair_witness :
    V2.getTranslationDirection (⟨none, [], none⟩ : PairState) "x" = none ∧
    V2.getTranslationDirection
      (⟨some ⟨zhLanguage, enLanguage⟩, [], none⟩ : PairState) "unknown" =
      some ⟨zhLanguage, enLanguage⟩ :=
  ⟨(resolve_none_iff_no_pair ⟨none, [], none⟩ "x").1.mpr rfl,
   (resolve_none_iff_no_pair ⟨some ⟨zhLanguage, enLanguage⟩, [], none⟩
     "unknown").2 ⟨zhLanguage, enLanguage⟩ rfl rfl⟩

/-- C6 (on the `part_001` revision it cites): when a pair is locked and a
known speaker's language matches neither `pair.source.code` nor
`pair.target.code`, the resolver returns the default direction
`source → target` without failing; the resolver is pure in this revision, and
the registry upsert never writes the locked pair either, so resolution never
silently destroys or modifies the pair. -/
theorem resolve_drift_defaults_and_preserves_pair (σ : PairState)
    (p : LockedLanguagePair) (s : Speaker) (speakerId : String)
    (language : Language) (now : Nat)
    (hp : σ.lockedLanguagePair = some p)
    (hfind : σ.activeSpeakers.find?
      (fun sp => sp.speakerId == speakerId) = some s)
    (hs : s.language.code ≠ p.source.code)
    (ht : s.language.code ≠ p.target.code) :
    V2.getTranslationDirection σ speakerId = some ⟨p.source, p.target⟩ ∧
    (V2.handleNewSpeaker σ speakerId language now).lockedLanguagePair =
      σ.lockedLanguagePair := by
  constructor
  · simp [V2.getTranslationDirection, hp, hfind, hs, ht]
  · unfold V2.handleNewSpeaker
    simp only
    split
    · rfl
    · split
      · rfl
      · split <;> rfl

/-- Witness for C6: with the `{zh, en}` pair and the Korean speaker `"c"`,
resolution yields the default `zh → en` and a subsequent upsert leaves the
pair untouched. -/
theorem resolve_drift_defaults_and_preserves_pair_witness :
    V2.getTranslationDirection
      (⟨some ⟨zhLanguage, enLanguage⟩, [⟨"c", ⟨"ko", "Korean"⟩, 3, true⟩],
        none⟩ : PairState) "c" = some ⟨zhLanguage, enLanguage⟩ ∧
    (V2.handleNewSpeaker
      (⟨some ⟨zhLanguage, enLanguage⟩, [⟨"c", ⟨"ko", "Korean"⟩, 3, true⟩],
        none⟩ : PairState) "c" ⟨"ko", "Korean"⟩ 4).lockedLanguagePair =
      some ⟨zhLanguage, enLanguage⟩ := by
  have h := resolve_drift_defaults_and_preserves_pair
    ⟨some ⟨zhLanguage, enLanguage⟩, [⟨"c", ⟨"ko", "Korean"⟩, 3, true⟩], none⟩
    ⟨zhLanguage, enLanguage⟩ ⟨"c", ⟨"ko", "Korean"⟩, 3, true⟩ "c"
    ⟨"ko", "Korean"⟩ 4 rfl (by decide) (by decide) (by decide)
  exact ⟨h.1, by rw [h.2]⟩

theorem find?_append_of_none {α : Type} (p : α → Bool) (l1 l2 : List α)
    (h : l1.find? p = none) : (l1 ++ l2).find? p = l2.find? p := by
  induction l1 with
  | nil => simp
  | cons a l ih =>
      cases hpa : p a with
      | true =>
          rw [List.find?_cons_of_pos _ hpa] at h
          cases h
      | false =>
          rw [List.find?_cons_of_neg _ (by simp [hpa])] at h
          rw [List.cons_append, List.find?_cons_of_neg _ (by simp [hpa])]
          exact ih h

theorem lookup_setKey_pruneOld (m : List (String × Nat)) (k : String)
    (v now : Nat) (hnone : Dispatch.lookupKey m k = none)
    (hv : now - 300000 ≤ v) :
    Dispatch.lookupKey (Dispatch.pruneOld (Dispatch.setKey m k v) now) k =
      some v := by
  have hfind : m.find? (fun e => e.1 == k) = none := by
    unfold Dispatch.lookupKey at hnone
    cases hf : m.find? (fun e => e.1 == k) with
    | none => rfl
    | some e =>
        rw [hf] at hnone
        cases hnone
  have hall := List.find?_eq_none.mp hfind
  have hany : m.any (fun e => e.1 == k) = false := by
    cases hx : m.any (fun e => e.1 == k) with
    | false => rfl
    | true =>
        obtain ⟨e, he, hpe⟩ := List.any_eq_true.mp hx
        exact absurd hpe (hall e he)
  have hset : Dispatch.setKey m k v = m ++ [(k, v)] := by
    unfold Dispatch.setKey
    rw [hany]
    simp
  rw [hset]
  unfold Dispatch.pruneOld Dispatch.lookupKey
  rw [List.filter_append]
  have hkeep : List.filter (fun e => decide (now - 300000 ≤ e.2)) [(k, v)] =
      [(k, v)] := by
    rw [List.filter_cons]
    rw [if_pos (decide_eq_true hv)]
    rfl
  rw [hkeep]
  rw [find?_append_of_none]
  · simp
  · apply List.find?_eq_none.mpr
    intro x hx
    exact hall x (List.mem_filter.mp hx).1

/-- C7: two `translate_text` dispatches carrying the identical
`(normalized text prefix, source, target)` key, the second within the
3-second dedup window of the first, result in exactly one pass toward the
translation collaborator: the first records and proceeds, the second is
skipped as a circular translation and leaves the history untouched; on
insert, every history entry older than the 5-minute window is pruned. -/
theorem dispatch_dedup_single_invocation (m : List (String × Nat))
    (t1 t2 : Nat) (text sourceLang targetLang : String)
    (hfresh : Dispatch.lookupKey m
      (Dispatch.translationKey text sourceLang targetLang) = none)
    (ht1 : 0 < t1) (hwin : t2 - t1 < 3000) :
    (Dispatch.dispatchDedup m t1 text sourceLang targetLang).1 =
      Dispatch.DispatchOutcome.recorded ∧
    (Dispatch.dispatchDedup
      (Dispatch.dispatchDedup m t1 text sourceLang targetLang).2 t2
      text sourceLang targetLang).1 =
      Dispatch.DispatchOutcome.skippedCircular ∧
    (Dispatch.dispatchDedup
      (Dispatch.dispatchDedup m t1 text sourceLang targetLang).2 t2
      text sourceLang targetLang).2 =
      (Dispatch.dispatchDedup m t1 text sourceLang targetLang).2 ∧
    ∀ e ∈ (Dispatch.dispatchDedup m t1 text sourceLang targetLang).2,
      t1 - 300000 ≤ e.2 := by
  have hfirst : Dispatch.dispatchDedup m t1 text sourceLang targetLang =
      (Dispatch.DispatchOutcome.recorded,
       Dispatch.pruneOld
         (Dispatch.setKey m
           (Dispatch.translationKey text sourceLang targetLang) t1) t1) := by
    simp only [Dispatch.dispatchDedup]
    rw [hfresh]
  have hlook2 : Dispatch.lookupKey
      (Dispatch.pruneOld
        (Dispatch.setKey m
          (Dispatch.translationKey text sourceLang targetLang) t1) t1)
      (Dispatch.translationKey text sourceLang targetLang) = some t1 :=
    lookup_setKey_pruneOld m _ t1 t1 hfresh (Nat.sub_le _ _)
  have hsecond : Dispatch.dispatchDedup
      (Dispatch.dispatchDedup m t1 text sourceLang targetLang).2 t2
      text sourceLang targetLang =
      (Dispatch.DispatchOutcome.skippedCircular,
       (Dispatch.dispatchDedup m t1 text sourceLang targetLang).2) := by
    rw [hfirst]
    simp only [Dispatch.dispatchDedup]
    rw [hlook2]
    simp only
    rw [if_pos ⟨Nat.pos_iff_ne_zero.mp ht1, hwin⟩]
  refine ⟨by rw [hfirst], by rw [hsecond], by rw [hsecond], ?_⟩
  intro e he
  rw [hfirst] at he
  simp only at he
  unfold Dispatch.pruneOld at he
  exact of_decide_eq_true (List.mem_filter.mp he).2

/-- Witness for C7: on an empty history, dispatching `"Hello world"`
`en → fr` at time 1 proceeds, and the identical dispatch at time 2 is
skipped. -/
theorem dispatch_dedup_single_invocation_witness :
    (Dispatch.dispatchDedup [] 1 "Hello world" "en" "fr").1 =
      Dispatch.DispatchOutcome.recorded ∧
    (Dispatch.dispatchDedup
      (Dispatch.dispatchDedup [] 1 "Hello world" "en" "fr").2 2
      "Hello world" "en" "fr").1 =
      Dispatch.DispatchOutcome.skippedCircular := by
  have h := dispatch_dedup_single_invocation [] 1 2 "Hello world" "en" "fr"
    rfl (by decide) (by decide)
  exact ⟨h.1, h.2.1⟩

/-- C8: for every direction, a text that already carries the bracketed
`[lang → lang]` translation marker is always skipped by
`handleAudioTranscriptionComplete` and never reaches the translation
collaborator. -/
theorem marker_text_never_dispatched (direction : Option TranslationDirection)
    (transcription : String)
    (h : Handler.isTranslationMessage transcription = true) :
    Handler.handleAudioTranscriptionComplete direction transcription = none := by
  cases direction with
  | none => rfl
  | some d =>
      simp [Handler.handleAudioTranscriptionComplete, h]

/-- Witness for C8: `"[en → fr] hello"` matches the marker pattern and is
never dispatched, even under the matching `en → fr` direction. -/
theorem marker_text_never_dispatched_witness :
    Handler.isTranslationMessage "[en → fr] hello" = true ∧
    Handler.handleAudioTranscriptionComplete
      (some ⟨enLanguage, ⟨"fr", "French"⟩⟩) "[en → fr] hello" = none := by
  have h : Handler.isTranslationMessage "[en → fr] hello" = true := by decide
  exact ⟨h, marker_text_never_dispatched _ _ h⟩

/-- C9: for every text and every language code `L`, dispatching with the
identity direction `{source: L, target: L}` is always skipped (a no-op, not
an error): `translateAndSpeak` never issues the API call, and the handler
returns before reaching it. -/
theorem identity_direction_always_skipped (text lang name1 name2 : String) :
    Handler.translateAndSpeak text lang lang = none ∧
    Handler.handleAudioTranscriptionComplete
      (some ⟨⟨lang, name1⟩, ⟨lang, name2⟩⟩) text = none := by
  constructor
  · simp [Handler.translateAndSpeak]
  · simp [Handler.handleAudioTranscriptionComplete]

theorem isSome_ite_true {α : Type} {c : Prop} [Decidable c] {a b : Option α}
    (ha : a.isSome = true) (hb : b.isSome = true) :
    (if c then a else b).isSome = true := by
  split
  · exact ha
  · exact hb

/-- C10: for every non-empty text other than the `"[inaudible]"` and
`"[Transcribing...]"` sentinels, both character-range detection heuristics
return a non-null language (so the downstream "could not detect language"
branch is unreachable for such transcripts), and when no non-Latin script
pattern matches they fall back to `"en"`. -/
theorem detection_total_on_nonempty (text : String)
    (h1 : text ≠ "") (h2 : text ≠ "[inaudible]")
    (h3 : text ≠ "[Transcribing...]") :
    (Detect.detectLanguageSimple text).isSome = true ∧
    (Detect.detectLanguageApp text).isSome = true ∧
    (Detect.noSpecialScript text = true →
      Detect.detectLanguageSimple text = some "en" ∧
      Detect.detectLanguageApp text = some ⟨"en", "English"⟩) := by
  have hb1 : (text == "") = false := beq_eq_false_iff_ne.mpr h1
  have hb2 : (text == "[inaudible]") = false := beq_eq_false_iff_ne.mpr h2
  have hb3 : (text == "[Transcribing...]") = false := beq_eq_false_iff_ne.mpr h3
  refine ⟨?_, ?_, ?_⟩
  · simp only [Detect.detectLanguageSimple, hb1, Bool.false_eq_true, if_false]
    exact isSome_ite_true rfl (isSome_ite_true rfl (isSome_ite_true rfl
      (isSome_ite_true rfl (isSome_ite_true rfl (isSome_ite_true rfl
        (isSome_ite_true rfl (isSome_ite_true rfl rfl)))))))
  · simp only [Detect.detectLanguageApp, hb1, hb2, hb3, Bool.or_self,
      Bool.false_or, Bool.or_false, Bool.false_eq_true, if_false]
    exact isSome_ite_true rfl (isSome_ite_true rfl (isSome_ite_true rfl
      (isSome_ite_true rfl (isSome_ite_true rfl (isSome_ite_true rfl
        (isSome_ite_true rfl (isSome_ite_true rfl rfl)))))))
  · intro hno
    simp only [Detect.noSpecialScript, Bool.and_eq_true, Bool.not_eq_true'] at hno
    obtain ⟨⟨⟨⟨⟨⟨⟨c1, c2⟩, c3⟩, c4⟩, c5⟩, c6⟩, c7⟩, c8⟩ := hno
    constructor
    · simp only [Detect.detectLanguageSimple, hb1, c1, c2, c3, c4, c5, c6, c7,
        c8, Bool.false_eq_true, if_false]
    · simp only [Detect.detectLanguageApp, hb1, hb2, hb3, c1, c2, c3, c4, c5,
        c6, c7, c8, Bool.or_self, Bool.false_or, Bool.or_false,
        Bool.false_eq_true, if_false]

/-- Witness for C10: `"hello"` is non-empty and non-sentinel, and both
heuristics detect a language for it. -/
theorem detection_total_on_nonempty_witness :
    (Detect.detectLanguageSimple "hello").isSome = true ∧
    (Detect.detectLanguageApp "hello").isSome = true := by
  have h := detection_total_on_nonempty "hello" (by decide) (by decide)
    (by decide)
  exact ⟨h.1, h.2.1⟩

end RealtimeTranslator
